import Mathlib

/-!
The package templemails: header model, message assembly and dispatch.

A shallow embedding of the Go package `templemails` (`templates.go`, `headers.go`,
`emails.go`) and the properties of its header model and send pipeline.

Conventions of the embedding.

* A Go `string` and a `[]byte` are both byte sequences; both are `String` here.
  `bytes.Buffer.Bytes` of a buffer that never received a byte is the nil slice, so the
  nil `[]byte` is the empty string.
* A Go `map[string]interface{}` is an association list with at most one entry per key;
  `range` visits the entries in list order (Go leaves the order open, the list fixes one).
  A nil map is `none`.
* An `interface{}` is a `Value`, a closed sum of the dynamic types the package inspects.
* A function that can panic or return an `error` returns a `Result`.
* The collaborators outside the package (template engine, transcoders, RFC 2047 word encoder,
  SMTP dialer, JSON decoder, Unicode case tables) are the fields of `Lib`.
-/

set_option linter.dupNamespace false

namespace Templemails

/-! ## Data model -/

/-- Go `error` values. -/
abbrev Error := String

/-- Outcome of a call: a value, a returned `error`, or a run-time panic. -/
inductive Result (α : Type) where
  | value (a : α)
  | error (e : Error)
  | panic
deriving Repr, DecidableEq

/-- Struct `Address` of `headers.go`. -/
structure Address where
  Name : String
  Address : String
deriving Repr, DecidableEq

/-- Type `Addresses` of `headers.go`. -/
abbrev Addresses := List Address

/-- Dynamic values held in an `interface{}`: what `encoding/json` decodes to (`null`, `bool`,
`number`, `str`, `list` for `[]interface{}`, `map` for `map[string]interface{}`) and the
package's own types `Addresses`, `*Address` and `HeaderValues`. -/
inductive Value where
  | null
  | bool (b : Bool)
  | number (n : Int)
  | str (s : String)
  | list (vs : List Value)
  | map (m : List (String × Value))
  | addresses (a : Addresses)
  | addressPtr (a : Address)
  | headerValues (vs : List Value)

/-- Contents of a `map[string]interface{}`. -/
abbrev GoMap := List (String × Value)

/-- Map read `v, ok := m[k]`. -/
def mapGet (m : GoMap) (k : String) : Option Value :=
  match m with
  | [] => none
  | (k1, v1) :: rest => if k1 = k then some v1 else mapGet rest k

/-- Map write `m[k] = v`. -/
def mapSet (m : GoMap) (k : String) (v : Value) : GoMap :=
  match m with
  | [] => [(k, v)]
  | (k1, v1) :: rest => if k1 = k then (k, v) :: rest else (k1, v1) :: mapSet rest k v

/-- Type `mail.Encoding` of the mail library. -/
inductive Encoding where
  | QuotedPrintable
  | Base64
  | Unencoded
deriving Repr, DecidableEq

/-- Struct `AttachFile` of `emails.go`. -/
structure AttachFile where
  Content : String
  Name : String
deriving Repr, DecidableEq

/-- One body part of a `mail.Message`. -/
structure Part where
  contentType : String
  body : String
  encoding : Encoding
deriving Repr, DecidableEq

/-- Type `mime.WordEncoder`: the RFC 2047 encoding of header words, `b` or `q`. -/
inductive WordEncoder where
  | BEncoding
  | QEncoding
deriving Repr, DecidableEq

/-- The state of a `mail.Message` that the package writes: charset, default transfer encoding,
header encoder, header lines per field, body parts, attachments and boundary. -/
structure Message where
  charset : String
  encoding : Encoding
  hEncoder : WordEncoder
  header : List (String × List String)
  parts : List Part
  attachments : List AttachFile
  boundary : String
deriving Repr, DecidableEq

/-- Library `mail.NewMessage(SetCharset(charset), SetEncoding(encoding))`: header words are
B-encoded when the transfer encoding is base64 and Q-encoded otherwise. -/
def NewMessage (charset : String) (encoding : Encoding) : Message :=
  { charset := charset, encoding := encoding,
    hEncoder := if encoding = .Base64 then .BEncoding else .QEncoding,
    header := [], parts := [], attachments := [], boundary := "" }

/-- Library `Message.GetHeader`: the lines stored under a field, none when the field is unset. -/
def Message.GetHeader (m : Message) (field : String) : List String :=
  (m.header.lookup field).getD []

/-- Write of the header table of a message. -/
def setLines (h : List (String × List String)) (field : String) (value : List String) :
    List (String × List String) :=
  match h with
  | [] => [(field, value)]
  | (f1, v1) :: rest => if f1 = field then (field, value) :: rest else (f1, v1) :: setLines rest field value

/-- Library `Message.SetBody`: the body becomes the single given part. -/
def Message.SetBody (m : Message) (contentType body : String) : Message :=
  { m with parts := [{ contentType := contentType, body := body, encoding := m.encoding }] }

/-- Library `Message.AddAlternative`, with an optional `SetPartEncoding`. -/
def Message.AddAlternative (m : Message) (contentType body : String) (enc : Option Encoding) :
    Message :=
  { m with parts := m.parts ++
      [{ contentType := contentType, body := body, encoding := enc.getD m.encoding }] }

/-- Library `Message.AttachReader`. -/
def Message.AttachReader (m : Message) (name : String) (content : String) : Message :=
  { m with attachments := m.attachments ++ [{ Content := content, Name := name }] }

/-- Library `Message.SetBoundary`. -/
def Message.SetBoundary (m : Message) (boundary : String) : Message :=
  { m with boundary := boundary }

/-- Interface `Template` of `templates.go`: `Execute` writes the rendered bytes or fails. -/
abbrev Template := Value → Except Error String

/-- Struct `MailTemplate` of `templates.go`. -/
structure MailTemplate where
  headers : Option GoMap
  Text : Option Template
  Html : Option Template
  File : Option AttachFile

/-- Collaborators outside the package. -/
structure Lib where
  /-- Go `unicode.ToLower` on a character outside ASCII -/
  unicodeToLower : Char → Char
  /-- Go `unicode.ToUpper` on a character outside ASCII -/
  unicodeToUpper : Char → Char
  /-- Go `template.New(name).Funcs(functions).Parse(value)` followed by `Execute` on the variables -/
  parseExecute : String → String → Value → Except Error String
  /-- what a Shift-JIS `transform.Writer` leaves in the buffer for the written bytes -/
  shiftJIS : String → Except Error String
  /-- the same for EUC-JP -/
  eucJP : String → Except Error String
  /-- the same for ISO-2022-JP -/
  iso2022JP : String → Except Error String
  /-- Go `mime.WordEncoder.encodeWord(charset, s)`: the RFC 2047 encoded form of a header value -/
  encodeWord : WordEncoder → String → String → String
  /-- Library `Message.FormatAddress(address, name)` -/
  FormatAddress : Message → String → String → String
  /-- Library `mail.Dialer.DialAndSend` with the configured host and credentials -/
  DialAndSend : Message → Option Error
  /-- package variable `DryRun` -/
  DryRun : Bool

/-! ## Standard library helpers -/

/-- Go `strings.ToLower`: ASCII letters are folded directly, other characters by `unicode.ToLower`. -/
def ToLower (lib : Lib) (s : String) : String :=
  String.mk (s.data.map fun c => if c.val < 128 then c.toLower else lib.unicodeToLower c)

/-- Go `strings.ToUpper`. -/
def ToUpper (lib : Lib) (s : String) : String :=
  String.mk (s.data.map fun c => if c.val < 128 then c.toUpper else lib.unicodeToUpper c)

/-- Go `textproto.validHeaderFieldByte`: the RFC 7230 token characters. -/
def validHeaderFieldByte (c : Char) : Bool :=
  c.isAlphanum || "!#$%&*+-.^_|~".data.contains c || c = Char.ofNat 39 || c = Char.ofNat 96

/-- Loop of `textproto.canonicalMIMEHeaderKey`: upper case at the start and after each dash,
lower case elsewhere. -/
def canonicalLoop (upper : Bool) : List Char → List Char
  | [] => []
  | c :: cs =>
    let c1 := if upper && c.isLower then c.toUpper
              else if !upper && c.isUpper then c.toLower else c
    c1 :: canonicalLoop (c1 = '-') cs

/-- Go `textproto.CanonicalMIMEHeaderKey`: a key made of token characters only is put in
canonical capitalisation, any other key is returned unchanged. -/
def CanonicalMIMEHeaderKey (s : String) : String :=
  if s.data.all validHeaderFieldByte then String.mk (canonicalLoop true s.data) else s

/-! ## Header lines of a message -/

/-- Go `mime.needsEncoding`: some character is neither printable ASCII nor a tab. -/
def needsEncoding (s : String) : Bool :=
  s.data.any fun c => (c.toNat < 32 || c.toNat > 126) && c != Char.ofNat 9

/-- Library `Message.encodeString`, which is `mime.WordEncoder.Encode` with the header encoder and
charset of the message: a value that needs no encoding is returned as it is, any other value
becomes its RFC 2047 encoded form. -/
def Message.encodeString (lib : Lib) (m : Message) (value : String) : String :=
  if needsEncoding value then lib.encodeWord m.hEncoder m.charset value else value

/-- Library `Message.SetHeader`: every given line is passed through `encodeString`
(`encodeHeader`) and the field then holds the encoded lines. -/
def Message.SetHeader (lib : Lib) (m : Message) (field : String) (value : List String) : Message :=
  { m with header := setLines m.header field (value.map (m.encodeString lib)) }

/-! ## headers.go -/

/-- Loop of `mapToAddress` over the map entries; a value that is not a string under a key
spelled `name` or `address` makes the type assertion panic. -/
def mapToAddressLoop (lib : Lib) (name address : String) : GoMap → Result Address
  | [] => .value { Name := name, Address := address }
  | (k, v) :: rest =>
    if ToLower lib k = "name" then
      match v with
      | .str s => mapToAddressLoop lib s address rest
      | _ => .panic
    else if ToLower lib k = "address" then
      match v with
      | .str s => mapToAddressLoop lib name s rest
      | _ => .panic
    else mapToAddressLoop lib name address rest

/-- Function `mapToAddress` of `headers.go`. -/
def mapToAddress (lib : Lib) (m : GoMap) : Result Address :=
  mapToAddressLoop lib "" "" m

/-! ## templates.go: SetHeader -/

/-- Loop of `SetHeader` over the values of an address key (lines 82 to 92): a map is read by
`mapToAddress`, a string is an address without a name, any other value is skipped. -/
def appendAddresses (lib : Lib) (addresses : Addresses) : List Value → Result Addresses
  | [] => .value addresses
  | v :: rest =>
    match v with
    | .map m =>
      match mapToAddress lib m with
      | .value a => appendAddresses lib (addresses ++ [a]) rest
      | .error e => .error e
      | .panic => .panic
    | .str s => appendAddresses lib (addresses ++ [{ Name := "", Address := s }]) rest
    | _ => appendAddresses lib addresses rest

/-- Method `MailTemplate.SetHeader` of `templates.go`; `value` is the variadic argument, a
`[]interface{}`. -/
def MailTemplate.SetHeader (lib : Lib) (mt : MailTemplate) (key : String) (value : List Value) :
    Result MailTemplate :=
  let headers := mt.headers.getD []
  let key := CanonicalMIMEHeaderKey key
  if key = "From" ∨ key = "To" ∨ key = "Cc" ∨ key = "Bcc" then
    match appendAddresses lib [] value with
    | .value addresses =>
      if key = "From" then
        .value { mt with headers := some (mapSet headers key (.addresses addresses)) }
      else
        match mapGet headers key with
        | some (.addresses a) =>
          .value { mt with headers := some (mapSet headers key (.addresses (a ++ addresses))) }
        | some _ => .value { mt with headers := some headers }
        | none => .value { mt with headers := some (mapSet headers key (.addresses addresses)) }
    | .error e => .error e
    | .panic => .panic
  else
    match mapGet headers key with
    | some (.list a) => .value { mt with headers := some (mapSet headers key (.list (a ++ value))) }
    | some _ => .value { mt with headers := some (mapSet headers key (.list value)) }
    | none => .value { mt with headers := some (mapSet headers key (.list value)) }

/-- Header entry of a template under a key, none when the map is nil or has no such key. -/
def MailTemplate.header (mt : MailTemplate) (key : String) : Option Value :=
  mapGet (mt.headers.getD []) key

/-! ## emails.go -/

/-- Function `getCharset` of `emails.go`: only a `[]interface{}` entry is read, and its first
element is asserted to be a string. -/
def getCharset (headers : Option GoMap) : Result String :=
  match headers with
  | none => .value "UTF-8"
  | some h =>
    match mapGet h "Charset" with
    | some (.list (.str s :: _)) => .value s
    | some (.list (_ :: _)) => .panic
    | _ => .value "UTF-8"

/-- Function `getHeaderValue` of `emails.go`. -/
def getHeaderValue (v : Value) : Result String :=
  match v with
  | .list (.str s :: _) => .value s
  | .list (_ :: _) => .panic
  | .list [] => .value ""
  | .str s => .value s
  | _ => .value ""

/-- Method `HeaderValues.StringSlice` of `emails.go`: the string elements, in order. -/
def HeaderValues.StringSlice : List Value → List String
  | [] => []
  | .str s :: rest => s :: HeaderValues.StringSlice rest
  | _ :: rest => HeaderValues.StringSlice rest

/-- Loop of `getEncoding` over the header entries: the value under a key spelled `encoding` is
asserted to be a string. -/
def getEncodingLoop (lib : Lib) (encoding : String) : GoMap → Result String
  | [] => .value encoding
  | (k, v) :: rest =>
    if ToLower lib k = "encoding" then
      match v with
      | .str s => getEncodingLoop lib s rest
      | _ => .panic
    else getEncodingLoop lib encoding rest

/-- Function `getEncoding` of `emails.go`. -/
def getEncoding (lib : Lib) (headers : Option GoMap) : Result Encoding :=
  match getEncodingLoop lib "" (headers.getD []) with
  | .value encoding =>
    let encoding := if encoding = "" then "base64" else encoding
    let e := ToLower lib encoding
    if e = "quoted-printable" then .value .QuotedPrintable
    else if e = "base64" then .value .Base64
    else if e = "8bit" then .value .Unencoded
    else .value .Base64
  | .error e => .error e
  | .panic => .panic

/-- Function `encode` of `emails.go`, with its three results: the bytes (nil on failure), the
charset (empty on failure) and the error. -/
def encode (lib : Lib) (charset : String) (b : String) : String × String × Option Error :=
  let cs := ToUpper lib charset
  let written : Except Error String :=
    if cs = "SHIFT_JIS" ∨ cs = "SHIFT-JIS" then lib.shiftJIS b
    else if cs = "EUC-JP" then lib.eucJP b
    else if cs = "ISO-2022-JP" then lib.iso2022JP b
    else .ok b
  match written with
  | .ok out => (out, charset, none)
  | .error e => ("", "", some e)

/-- Function `encodeString` of `emails.go`. -/
def encodeString (lib : Lib) (charset : String) (str : String) : Result String :=
  match encode lib charset str with
  | (b, _, none) => .value b
  | (_, _, some e) => .error e

/-- Function `translate` of `emails.go`; the nil interface is `Value.null`. With variables, the
`err` that receives the result of `encodeString` is the one declared by `tm, err :=` inside the
block, so the check after the block reads the outer `err`, still nil: the function then returns
the subject `encodeString` returned (empty when it failed) and a nil error. -/
def translate (lib : Lib) (charset name value : String) (vars : Value) : Result String :=
  match vars with
  | .null => encodeString lib charset value
  | _ =>
    match lib.parseExecute name value vars with
    | .error e => .error e
    | .ok s =>
      match encodeString lib charset s with
      | .value subject => .value subject
      | .error _ => .value ""
      | .panic => .panic

/-- Method `Address.format` of `headers.go`: appends one formatted entry to the list. -/
def Address.format (lib : Lib) (a : Templemails.Address) (list : List String) (msg : Message)
    (charset : String) (vars : Value) : Result (List String) :=
  if a.Name ≠ "" then
    match translate lib charset "address" a.Name vars with
    | .value name =>
      match translate lib charset "address" a.Address vars with
      | .value address => .value (list ++ [lib.FormatAddress msg address name])
      | .error e => .error e
      | .panic => .panic
    | .error e => .error e
    | .panic => .panic
  else
    match translate lib charset "address" a.Address vars with
    | .value v => .value (list ++ [v])
    | .error e => .error e
    | .panic => .panic

/-- Method `Address.Format` of `headers.go`. -/
def Address.Format (lib : Lib) (a : Templemails.Address) (msg : Message) (charset : String)
    (vars : Value) : Result (List String) :=
  Address.format lib a [] msg charset vars

/-- Loop of `Addresses.Format`. -/
def Addresses.formatLoop (lib : Lib) (msg : Message) (charset : String) (vars : Value)
    (addresses : List String) : Addresses → Result (List String)
  | [] => .value addresses
  | v :: rest =>
    match Address.format lib v addresses msg charset vars with
    | .value addresses1 => Addresses.formatLoop lib msg charset vars addresses1 rest
    | .error e => .error e
    | .panic => .panic

/-- Method `Addresses.Format` of `headers.go`. -/
def Addresses.Format (lib : Lib) (a : Addresses) (msg : Message) (charset : String)
    (vars : Value) : Result (List String) :=
  Addresses.formatLoop lib msg charset vars [] a

/-- Body of the loop of `newMessage` for one header entry. -/
def newMessageStep (lib : Lib) (charset : String) (vars : Value) (m : Message) (k : String)
    (v : Value) : Result Message :=
  let k := CanonicalMIMEHeaderKey k
  let other : Result Message :=
    if k = "Subject" ∨ k = "Title" then
      match getHeaderValue v with
      | .value s =>
        match translate lib charset "Subject" s vars with
        | .value subject => .value (m.SetHeader lib "Subject" [subject])
        | .error e => .error e
        | .panic => .panic
      | .error e => .error e
      | .panic => .panic
    else if k = "Encoding" ∨ k = "Charset" then .value m
    else
      match v with
      | .headerValues h => .value (m.SetHeader lib k (HeaderValues.StringSlice h))
      | _ =>
        match getHeaderValue v with
        | .value str => if str ≠ "" then .value (m.SetHeader lib k [str]) else .value m
        | .error e => .error e
        | .panic => .panic
  match v with
  | .addresses a =>
    match Addresses.Format lib a m charset vars with
    | .value address => .value (m.SetHeader lib k address)
    | .error e => .error e
    | .panic => .panic
  | .addressPtr a =>
    match Address.Format lib a m charset vars with
    | .value address => .value (m.SetHeader lib k address)
    | .error e => .error e
    | .panic => .panic
  | _ => other

/-- Loop of `newMessage` over the header entries. -/
def newMessageLoop (lib : Lib) (charset : String) (vars : Value) (m : Message) :
    GoMap → Result Message
  | [] => .value m
  | (k, v) :: rest =>
    match newMessageStep lib charset vars m k v with
    | .value m1 => newMessageLoop lib charset vars m1 rest
    | .error e => .error e
    | .panic => .panic

/-- The charset `newMessage` works with: the argument, or `getCharset` of the headers when the
argument is empty (lines 64 to 66). -/
def newMessageCharset (charset : String) (headers : Option GoMap) : Result String :=
  if charset = "" then getCharset headers else .value charset

/-- Function `newMessage` of `emails.go`. -/
def newMessage (lib : Lib) (charset : String) (headers : Option GoMap) (vars : Value) :
    Result Message :=
  match newMessageCharset charset headers with
  | .value charset =>
    match getEncoding lib headers with
    | .value encoding =>
      newMessageLoop lib charset vars (NewMessage charset encoding) (headers.getD [])
    | .error e => .error e
    | .panic => .panic
  | .error e => .error e
  | .panic => .panic

/-- Function `addAddressHeader` of `emails.go`. -/
def addAddressHeader (lib : Lib) (msg : Message) (vars : Value) (charset key : String)
    (addresses : Addresses) : Result Message :=
  let key := CanonicalMIMEHeaderKey key
  let fields := msg.GetHeader key
  let headers : List String := if fields = [] then [] else [] ++ fields
  match Addresses.Format lib addresses msg charset vars with
  | .value values => .value (msg.SetHeader lib key (headers ++ values))
  | .error e => .error e
  | .panic => .panic

/-- Common start of the three send functions: build the message and add the recipients given
at send time, if any (the variadic `to`, `none` for a nil slice). -/
def prepare (lib : Lib) (charset : String) (headers : Option GoMap) (vars : Value)
    (recipients : Option Addresses) : Result Message :=
  match newMessage lib charset headers vars with
  | .value m =>
    match recipients with
    | some rs => addAddressHeader lib m vars charset "To" rs
    | none => .value m
  | .error e => .error e
  | .panic => .panic

/-- Common end of the three send functions: attach the file, then log (dry run) or deliver. The
result is the message handed to the transport. -/
def deliver (lib : Lib) (m : Message) (file : Option AttachFile) : Result Message :=
  let m := match file with
    | some f => m.AttachReader f.Name f.Content
    | none => m
  if lib.DryRun then .value m
  else
    match lib.DialAndSend m with
    | some e => .error e
    | none => .value m

/-- Function `Send` of `emails.go`. -/
def Send (lib : Lib) (charset : String) (headers : Option GoMap) (body : String) (vars : Value)
    (file : Option AttachFile) (recipients : Option Addresses) : Result Message :=
  match prepare lib charset headers vars recipients with
  | .value m => deliver lib (m.SetBody "text/plain" body) file
  | .error e => .error e
  | .panic => .panic

/-- Function `SendHTML` of `emails.go`. -/
def SendHTML (lib : Lib) (charset : String) (headers : Option GoMap) (body : String)
    (vars : Value) (file : Option AttachFile) (recipients : Option Addresses) : Result Message :=
  match prepare lib charset headers vars recipients with
  | .value m => deliver lib (m.SetBody "text/html" body) file
  | .error e => .error e
  | .panic => .panic

/-- Function `SendMultipart` of `emails.go`. -/
def SendMultipart (lib : Lib) (charset : String) (headers : Option GoMap)
    (textBody htmlBody : String) (vars : Value) (file : Option AttachFile)
    (recipients : Option Addresses) : Result Message :=
  match prepare lib charset headers vars recipients with
  | .value m =>
    deliver lib
      (((m.SetBoundary "aaa").AddAlternative "text/plain" textBody none).AddAlternative
        "text/html" htmlBody (some .QuotedPrintable)) file
  | .error e => .error e
  | .panic => .panic

/-! ## templates.go: Send and getTemplate -/

/-- A call of one of the package's send functions, with charset and bodies as passed. -/
inductive Call where
  | Send (charset : String) (body : String)
  | SendHTML (charset : String) (body : String)
  | SendMultipart (charset : String) (textBody htmlBody : String)
deriving Repr, DecidableEq

/-- What `MailTemplate.Send` did: the send functions it called, in order, and what it returned
(`none` for a nil error; `panic` when it did not return). -/
structure Sent where
  calls : List Call
  err : Result (Option Error)
deriving Repr, DecidableEq

/-- Outcome of a send function as seen by its caller. -/
def errorOf (r : Result Message) : Result (Option Error) :=
  match r with
  | .value _ => .value none
  | .error e => .value (some e)
  | .panic => .panic

/-- Rendering half of `MailTemplate.Send` for one body (lines 124 to 129 and 130 to 136): the error
of `Execute` when it fails and `Send` returns at once, else the new body, charset and `err`. -/
def renderBody (lib : Lib) (t : Template) (vars : Value) (charset : String) :
    Except Error (String × String × Option Error) :=
  match t vars with
  | .error e => .error e
  | .ok out => .ok (encode lib charset out)

/-- Dispatch half of `MailTemplate.Send` (lines 140 to 152). -/
def dispatch (lib : Lib) (mt : MailTemplate) (vars : Value) (recipients : Option Addresses)
    (charset textBody htmlBody : String) : Sent :=
  if textBody ≠ "" then
    if htmlBody ≠ "" then
      { calls := [.SendMultipart charset textBody htmlBody],
        err := errorOf (SendMultipart lib charset mt.headers textBody htmlBody vars mt.File recipients) }
    else
      { calls := [.Send charset textBody],
        err := errorOf (Send lib charset mt.headers textBody vars mt.File recipients) }
  else if mt.Html.isSome then
    { calls := [.SendHTML charset htmlBody],
      err := errorOf (SendHTML lib charset mt.headers htmlBody vars mt.File recipients) }
  else { calls := [], err := .value none }

/-- Method `MailTemplate.Send` of `templates.go`. -/
def MailTemplate.Send (lib : Lib) (mt : MailTemplate) (vars : Value) (recipients : Option Addresses) :
    Sent :=
  match getCharset mt.headers with
  | .panic => { calls := [], err := .panic }
  | .error e => { calls := [], err := .value (some e) }
  | .value charset =>
    let afterText : Except Error (String × String × Option Error) :=
      match mt.Text with
      | some t => renderBody lib t vars charset
      | none => .ok ("", charset, none)
    match afterText with
    | .error e => { calls := [], err := .value (some e) }
    | .ok (textBody, charset, err) =>
      let afterHtml : Except Error (String × String × Option Error) :=
        match mt.Html with
        | some t => renderBody lib t vars charset
        | none => .ok ("", charset, err)
      match afterHtml with
      | .error e => { calls := [], err := .value (some e) }
      | .ok (htmlBody, charset, err) =>
        match err with
        | some e => { calls := [], err := .value (some e) }
        | none => dispatch lib mt vars recipients charset textBody htmlBody

/-- Loop of `getTemplate` (lines 68 to 70): one `SetHeader(k, v)` per decoded entry, the decoded
value being the single variadic argument. -/
def setHeaders (lib : Lib) (m : MailTemplate) : GoMap → Result MailTemplate
  | [] => .value m
  | (k, v) :: rest =>
    match m.SetHeader lib k [v] with
    | .value m1 => setHeaders lib m1 rest
    | .error e => .error e
    | .panic => .panic

/-- Type `tmpl.TemplateData`: a template source read from the store. -/
abbrev TemplateData := String

/-- The template store and JSON decoder as `getTemplate` meets them for one template name. -/
structure Loader where
  /-- Result of `tmpl.Search(ctx, template, "header.json")`, `none` for nil data -/
  Search : Except Error (Option String)
  /-- Result of `json.Unmarshal` on the header document -/
  Unmarshal : String → Except Error GoMap
  /-- Result of `tmpl.Read(ctx, template, "body.tmpl")` -/
  ReadText : Except Error (Option TemplateData)
  /-- Result of `tmpl.Read(ctx, template, "body.html")` -/
  ReadHtml : Except Error (Option TemplateData)

/-- Variable `NotFoundTemplate` of `templates.go`. -/
def NotFoundTemplate : Error := "template: not found"

/-- Function `getTemplate` of `templates.go`. -/
def getTemplate (lib : Lib) (ld : Loader)
    (f : Option TemplateData → Option TemplateData → Except Error (Option Template × Option Template)) :
    Result MailTemplate :=
  match ld.Search with
  | .error e => .error e
  | .ok data =>
    let decoded : Except Error GoMap :=
      match data with
      | some d => ld.Unmarshal d
      | none => .ok []
    match decoded with
    | .error e => .error e
    | .ok headers =>
      match ld.ReadText with
      | .error e => .error e
      | .ok textData =>
        match ld.ReadHtml with
        | .error e => .error e
        | .ok htmlData =>
          if textData.isNone ∧ htmlData.isNone then .error NotFoundTemplate
          else
            match f textData htmlData with
            | .error e => .error e
            | .ok (text, html) =>
              setHeaders lib { headers := none, Text := text, Html := html, File := none } headers

/-! ## A concrete set of collaborators -/

/-- Transcoder stand-in: ASCII text passes unchanged, as with the real encoders; any other text is
rejected the way the real encoders reject a character outside their repertoire. -/
def asciiTranscoder (b : String) : Except Error String :=
  if b.data.all (fun c => c.val < 128) then .ok b
  else .error "encoding: rune not supported by encoding."

/-- UTF-8 bytes of a character. -/
def utf8Bytes (c : Char) : List Nat :=
  let n := c.toNat
  if n < 128 then [n]
  else if n < 2048 then [192 + n / 64, 128 + n % 64]
  else if n < 65536 then [224 + n / 4096, 128 + n / 64 % 64, 128 + n % 64]
  else [240 + n / 262144, 128 + n / 4096 % 64, 128 + n / 64 % 64, 128 + n % 64]

/-- Digit of the standard base64 alphabet. -/
def base64Digit (n : Nat) : Char :=
  "ABCDEFGHIJKLMNOPQRSTUVWXYZabcdefghijklmnopqrstuvwxyz0123456789+/".data.getD n 'A'

/-- Standard base64 with padding. -/
def base64 : List Nat → List Char
  | a :: b :: c :: rest =>
    base64Digit (a / 4) :: base64Digit (a % 4 * 16 + b / 16) ::
      base64Digit (b % 16 * 4 + c / 64) :: base64Digit (c % 64) :: base64 rest
  | [a, b] => [base64Digit (a / 4), base64Digit (a % 4 * 16 + b / 16), base64Digit (b % 16 * 4), '=']
  | [a] => [base64Digit (a / 4), base64Digit (a % 4 * 16), '=', '=']
  | [] => []

/-- Go `mime.writeQString` for one byte. -/
def qByte (b : Nat) : List Char :=
  if b = 32 then ['_']
  else if 33 ≤ b ∧ b ≤ 126 ∧ b ≠ 61 ∧ b ≠ 63 ∧ b ≠ 95 then [Char.ofNat b]
  else ['=', "0123456789ABCDEF".data.getD (b / 16) '0', "0123456789ABCDEF".data.getD (b % 16) '0']

/-- Encoded-word stand-in: what `mime.WordEncoder.encodeWord` writes for a value short enough to
fit one encoded word (the library splits longer values into several words). -/
def shortEncodedWord (e : WordEncoder) (charset s : String) : String :=
  let bytes := (s.data.map utf8Bytes).flatten
  match e with
  | .BEncoding => "=?" ++ charset ++ "?b?" ++ String.mk (base64 bytes) ++ "?="
  | .QEncoding => "=?" ++ charset ++ "?q?" ++ String.mk ((bytes.map qByte).flatten) ++ "?="

/-- Library `hasSpecials`: the name holds a character that is special in an address. -/
def hasSpecials (text : String) : Bool :=
  text.data.any fun c => "()<>[]:;@,.".data.contains c || c = Char.ofNat 92 || c = Char.ofNat 34

/-- Library `Message.FormatAddress` with encoded words as in `shortEncodedWord`: the address alone
when there is no name; else the name, quoted when it needs no encoding and as an encoded word
otherwise, followed by the address in angle brackets. -/
def formatAddress (m : Message) (address name : String) : String :=
  if name = "" then address
  else
    let enc := if needsEncoding name then shortEncodedWord m.hEncoder m.charset name else name
    let shown :=
      if enc = name then
        String.mk ([Char.ofNat 34] ++
          (name.data.map fun c =>
            if c = Char.ofNat 92 ∨ c = Char.ofNat 34 then [Char.ofNat 92, c] else [c]).flatten ++
          [Char.ofNat 34])
      else if hasSpecials name then
        (if needsEncoding name then shortEncodedWord .BEncoding m.charset name else name)
      else enc
    shown ++ " <" ++ address ++ ">"

/-- Collaborators used to run the package on concrete inputs: texts render to themselves (true of
the template engine on texts without actions), transcoders as in `asciiTranscoder`, encoded words
as in `shortEncodedWord`, addresses formatted as in `formatAddress`, dry run on. -/
def stdLib : Lib where
  unicodeToLower := fun c => c
  unicodeToUpper := fun c => c
  parseExecute := fun _ value _ => .ok value
  shiftJIS := asciiTranscoder
  eucJP := asciiTranscoder
  iso2022JP := asciiTranscoder
  encodeWord := shortEncodedWord
  FormatAddress := formatAddress
  DialAndSend := fun _ => none
  DryRun := true

/-- The zero `MailTemplate`. -/
def MailTemplate.zero : MailTemplate :=
  { headers := none, Text := none, Html := none, File := none }

/-- A message that already carries one `To` line. -/
def sampleMessage : Message :=
  (NewMessage "UTF-8" .Base64).SetHeader stdLib "To" ["x@example.com"]

/-- A recipient whose address is not printable ASCII. -/
def accentedRecipients : Addresses :=
  [{ Name := "", Address := "é@example.com" }]

/-- Two recipients given at send time, one with a name and one without. -/
def sampleRecipients : Addresses :=
  [{ Name := "Ann", Address := "ann@example.com" }, { Name := "", Address := "b@example.com" }]

/-- A template whose text body renders to nothing and that has no HTML body. -/
def emptyTextTemplate : MailTemplate :=
  { headers := none, Text := some (fun _ => .ok ""), Html := none, File := none }

/-- A template whose text body renders to nothing and whose HTML body renders to a paragraph. -/
def emptyTextWithHtmlTemplate : MailTemplate :=
  { headers := none, Text := some (fun _ => .ok ""), Html := some (fun _ => .ok "<p>hi</p>"),
    File := none }

/-- A template whose text body renders to `hi` and whose HTML body renders to nothing. -/
def textWithEmptyHtmlTemplate : MailTemplate :=
  { headers := none, Text := some (fun _ => .ok "hi"), Html := some (fun _ => .ok ""),
    File := none }

/-- A text that no Japanese charset can encode: the single character U+1F600. -/
def unencodableText : String := String.singleton (Char.ofNat 128512)

/-- A template with both bodies whose text body renders to `unencodableText`. -/
def unencodableTextTemplate : MailTemplate :=
  { headers := none, Text := some (fun _ => .ok unencodableText),
    Html := some (fun _ => .ok "<p>hi</p>"), File := none }

/-- What `encoding/json` decodes the header document with the single entry `To`, an array holding
the one object with `Address` set to `a@example.com`, into. -/
def decodedToArray : GoMap :=
  [("To", .list [.map [("Address", .str "a@example.com")]])]

/-- A template store holding that header document and a text body. -/
def sampleLoader : Loader where
  Search := .ok (some "header.json")
  Unmarshal := fun _ => .ok decodedToArray
  ReadText := .ok (some "Hello")
  ReadHtml := .ok none

/-- The template constructor `GetTemplate` passes to `getTemplate`, for sources that render to
themselves. -/
def sampleTemplates (textData htmlData : Option TemplateData) :
    Except Error (Option Template × Option Template) :=
  .ok (textData.map (fun src _ => .ok src), htmlData.map (fun src _ => .ok src))

/-! ## Vocabulary of the properties -/

/-- Whether a value holds a Go string. -/
def Value.isStr : Value → Bool
  | .str _ => true
  | _ => false

/-- A map entry that `mapToAddress` can read: its key is not spelled `name` or `address` (in any
letter case), or its value is a string. -/
def addressEntryOk (lib : Lib) (kv : String × Value) : Bool :=
  (ToLower lib kv.1 != "name" && ToLower lib kv.1 != "address") || kv.2.isStr

/-- A value that an address header accepts: a bare address string, or a map whose entries spelled
`name` and `address` hold strings. -/
def IsAddressValue (lib : Lib) : Value → Bool
  | .str _ => true
  | .map m => m.all (addressEntryOk lib)
  | _ => false

/-- The address one value of an address header stands for: a bare string is an address without a
name, a map is read by `mapToAddress`; no other value stands for an address. -/
def addressOfValue (lib : Lib) : Value → Option Address
  | .str s => some { Name := "", Address := s }
  | .map m =>
    match mapToAddress lib m with
    | .value a => some a
    | _ => none
  | _ => none

/-- The `Addresses` built from a list of values: the address of each value, in order. -/
def builtAddresses (lib : Lib) (vs : List Value) : Addresses :=
  vs.filterMap (addressOfValue lib)

/-- The addresses a template already holds under a key, none when the key is unset. -/
def priorAddresses (mt : MailTemplate) (key : String) : Addresses :=
  match mt.header key with
  | some (.addresses a) => a
  | _ => []

/-- The list a template already holds under a key, empty when the key is unset or holds no
`[]interface{}`. -/
def priorList (mt : MailTemplate) (key : String) : List Value :=
  match mt.header key with
  | some (.list l) => l
  | _ => []

/-- Whether a canonical key is one of the address keys of `SetHeader`. -/
def isAddressKey (key : String) : Prop :=
  key = "From" ∨ key = "To" ∨ key = "Cc" ∨ key = "Bcc"

/-- Invariant of the header map of a template: whatever is stored under an address key is an
`Addresses`. -/
def AddressKeysTyped (mt : MailTemplate) : Prop :=
  ∀ k v, isAddressKey k → mt.header k = some v → ∃ a, v = Value.addresses a

/-- The template with its header map written at one key (the map is made first when nil). -/
def MailTemplate.withHeader (mt : MailTemplate) (key : String) (v : Value) : MailTemplate :=
  { mt with headers := some (mapSet (mt.headers.getD []) key v) }

/-! ## Lemmas on maps and address building -/

theorem mapGet_mapSet_same (m : GoMap) (k : String) (v : Value) :
    mapGet (mapSet m k v) k = some v := by
  induction m with
  | nil => simp [mapSet, mapGet]
  | cons e rest ih =>
    obtain ⟨k1, v1⟩ := e
    by_cases h : k1 = k
    · simp [mapSet, mapGet, h]
    · simp [mapSet, mapGet, h, ih]

theorem mapGet_mapSet_other (m : GoMap) (k k2 : String) (v : Value) (hne : k ≠ k2) :
    mapGet (mapSet m k v) k2 = mapGet m k2 := by
  induction m with
  | nil => simp [mapSet, mapGet, hne]
  | cons e rest ih =>
    obtain ⟨k1, v1⟩ := e
    by_cases h : k1 = k
    · subst h
      simp [mapSet, mapGet, hne]
    · by_cases h2 : k1 = k2
      · subst h2
        simp [mapSet, mapGet, h]
      · simp [mapSet, mapGet, h, h2, ih]

theorem mem_mapSet (m : GoMap) (k : String) (v : Value) : (k, v) ∈ mapSet m k v := by
  induction m with
  | nil => simp [mapSet]
  | cons e rest ih =>
    obtain ⟨k1, v1⟩ := e
    by_cases h : k1 = k
    · simp [mapSet, h]
    · simp [mapSet, h, ih]

theorem canonical_From : CanonicalMIMEHeaderKey "From" = "From" := by decide

theorem canonical_To : CanonicalMIMEHeaderKey "To" = "To" := by decide

theorem canonical_Cc : CanonicalMIMEHeaderKey "Cc" = "Cc" := by decide

theorem canonical_Bcc : CanonicalMIMEHeaderKey "Bcc" = "Bcc" := by decide

theorem mapToAddressLoop_value (lib : Lib) (m : GoMap) :
    ∀ name address : String, m.all (addressEntryOk lib) = true →
      ∃ a, mapToAddressLoop lib name address m = .value a := by
  induction m with
  | nil => intro name address _; exact ⟨_, rfl⟩
  | cons e rest ih =>
    intro name address h
    obtain ⟨k, v⟩ := e
    simp only [List.all_cons, Bool.and_eq_true] at h
    obtain ⟨hh, hr⟩ := h
    unfold mapToAddressLoop
    by_cases hn : ToLower lib k = "name"
    · simp only [hn, if_true]
      cases v <;> simp_all [addressEntryOk, Value.isStr]
    · by_cases ha : ToLower lib k = "address"
      · simp only [hn, ha, if_true, if_false]
        cases v <;> simp_all [addressEntryOk, Value.isStr]
      · simp only [hn, ha, if_false]
        exact ih name address hr

theorem addressOfValue_isSome (lib : Lib) (v : Value) (h : IsAddressValue lib v = true) :
    ∃ a, addressOfValue lib v = some a := by
  cases v with
  | str s => exact ⟨_, rfl⟩
  | map m =>
    obtain ⟨a, ha⟩ := mapToAddressLoop_value lib m "" "" (by simpa [IsAddressValue] using h)
    exact ⟨a, by simp [addressOfValue, mapToAddress, ha]⟩
  | _ => simp [IsAddressValue] at h

theorem appendAddresses_eq (lib : Lib) (vs : List Value) :
    ∀ acc : Addresses, (∀ v ∈ vs, IsAddressValue lib v = true) →
      appendAddresses lib acc vs = .value (acc ++ builtAddresses lib vs) := by
  induction vs with
  | nil => intro acc _; simp [appendAddresses, builtAddresses]
  | cons v rest ih =>
    intro acc h
    have hv := h v (List.mem_cons_self _ _)
    have hr : ∀ w ∈ rest, IsAddressValue lib w = true :=
      fun w hw => h w (List.mem_cons_of_mem _ hw)
    cases v with
    | str s =>
      simp [appendAddresses, builtAddresses, addressOfValue, ih _ hr]
    | map m =>
      obtain ⟨a, ha⟩ := mapToAddressLoop_value lib m "" "" (by simpa [IsAddressValue] using hv)
      have ha2 : mapToAddress lib m = .value a := ha
      simp [appendAddresses, builtAddresses, addressOfValue, ha2, ih _ hr]
    | _ => simp [IsAddressValue] at hv

theorem builtAddresses_length (lib : Lib) (vs : List Value)
    (h : ∀ v ∈ vs, IsAddressValue lib v = true) : (builtAddresses lib vs).length = vs.length := by
  induction vs with
  | nil => rfl
  | cons v rest ih =>
    obtain ⟨a, ha⟩ := addressOfValue_isSome lib v (h v (List.mem_cons_self _ _))
    have hr := ih (fun w hw => h w (List.mem_cons_of_mem _ hw))
    simp only [builtAddresses] at hr ⊢
    simp [List.filterMap_cons, ha, hr]

/-! ## SetHeader on address keys -/

theorem SetHeader_From_eq (lib : Lib) (mt : MailTemplate) (vs : List Value)
    (h : ∀ v ∈ vs, IsAddressValue lib v = true) :
    mt.SetHeader lib "From" vs =
      .value (mt.withHeader "From" (.addresses (builtAddresses lib vs))) := by
  simp [MailTemplate.SetHeader, MailTemplate.withHeader, canonical_From,
    appendAddresses_eq lib vs [] h]

theorem SetHeader_recipient_eq (lib : Lib) (mt : MailTemplate) (k : String) (vs : List Value)
    (hk : k = "To" ∨ k = "Cc" ∨ k = "Bcc") (h : ∀ v ∈ vs, IsAddressValue lib v = true)
    (hp : ∀ v, mt.header k = some v → ∃ a, v = .addresses a) :
    mt.SetHeader lib k vs =
      .value (mt.withHeader k (.addresses (priorAddresses mt k ++ builtAddresses lib vs))) := by
  have hc : CanonicalMIMEHeaderKey k = k := by
    rcases hk with rfl | rfl | rfl
    · exact canonical_To
    · exact canonical_Cc
    · exact canonical_Bcc
  have hnf : k ≠ "From" := by
    rcases hk with rfl | rfl | rfl <;> decide
  have hor : k = "From" ∨ k = "To" ∨ k = "Cc" ∨ k = "Bcc" := Or.inr hk
  unfold MailTemplate.SetHeader MailTemplate.withHeader
  simp only [hc]
  rw [if_pos hor]
  simp only [appendAddresses_eq lib vs [] h, List.nil_append]
  rw [if_neg hnf]
  unfold priorAddresses MailTemplate.header at *
  cases hg : mapGet (mt.headers.getD []) k with
  | none => simp
  | some v =>
    obtain ⟨a, rfl⟩ := hp v hg
    simp

theorem priorAddresses_of_header (mt : MailTemplate) (k : String) (a : Addresses)
    (h : mt.header k = some (.addresses a)) : priorAddresses mt k = a := by
  unfold priorAddresses
  rw [h]

theorem zero_header_none (k : String) :
    ∀ v, MailTemplate.zero.header k = some v → ∃ a, v = Value.addresses a := by
  intro v hv
  simp [MailTemplate.header, MailTemplate.zero, mapGet] at hv

theorem header_withHeader (mt : MailTemplate) (k : String) (v : Value) :
    (mt.withHeader k v).header k = some v := by
  simp [MailTemplate.withHeader, MailTemplate.header, mapGet_mapSet_same]

/-- C1 (as amended): for values that are bare address strings or name/address maps, after
`SetHeader("From", vs1...)` followed by `SetHeader("From", vs2...)` both calls return and the
stored `From` value is exactly the `Addresses` built from `vs2`, one per value and in order;
nothing of the first call is kept, so an address of `vs1` is stored only when `vs2` builds the
same address. -/
theorem SetHeader_From_twice_replaces (lib : Lib) (mt : MailTemplate) (vs1 vs2 : List Value)
    (h1 : ∀ v ∈ vs1, IsAddressValue lib v = true)
    (h2 : ∀ v ∈ vs2, IsAddressValue lib v = true) :
    ∃ mt1 mt2, mt.SetHeader lib "From" vs1 = .value mt1 ∧
      mt1.SetHeader lib "From" vs2 = .value mt2 ∧
      mt2.header "From" = some (.addresses (builtAddresses lib vs2)) ∧
      (builtAddresses lib vs2).length = vs2.length ∧
      ∀ stored, mt2.header "From" = some (.addresses stored) →
        ∀ a ∈ builtAddresses lib vs1, a ∉ builtAddresses lib vs2 → a ∉ stored := by
  refine ⟨_, _, SetHeader_From_eq lib mt vs1 h1, SetHeader_From_eq lib _ vs2 h2,
    header_withHeader _ _ _, builtAddresses_length lib vs2 h2, ?_⟩
  intro stored hs a _ hna
  rw [header_withHeader] at hs
  cases hs
  exact hna

/-- C1 (witness): the amended statement at a template, a first sender and a second call with a
name/address map and a bare string. -/
theorem SetHeader_From_twice_replaces_witness :
    (∀ v ∈ [Value.str "old@example.com"], IsAddressValue stdLib v = true) ∧
    (∀ v ∈ [Value.map [("Name", .str "Ann"), ("Address", .str "ann@example.com")],
        Value.str "b@example.com"], IsAddressValue stdLib v = true) ∧
    ∃ mt1 mt2, MailTemplate.zero.SetHeader stdLib "From" [Value.str "old@example.com"] = .value mt1 ∧
      mt1.SetHeader stdLib "From"
        [Value.map [("Name", .str "Ann"), ("Address", .str "ann@example.com")],
          Value.str "b@example.com"] = .value mt2 ∧
      mt2.header "From" = some (.addresses (builtAddresses stdLib
        [Value.map [("Name", .str "Ann"), ("Address", .str "ann@example.com")],
          Value.str "b@example.com"])) ∧
      (builtAddresses stdLib
        [Value.map [("Name", .str "Ann"), ("Address", .str "ann@example.com")],
          Value.str "b@example.com"]).length = 2 ∧
      ∀ stored, mt2.header "From" = some (.addresses stored) →
        ∀ a ∈ builtAddresses stdLib [Value.str "old@example.com"],
          a ∉ builtAddresses stdLib
            [Value.map [("Name", .str "Ann"), ("Address", .str "ann@example.com")],
              Value.str "b@example.com"] → a ∉ stored :=
  ⟨by decide, by decide,
    SetHeader_From_twice_replaces stdLib MailTemplate.zero [Value.str "old@example.com"]
      [Value.map [("Name", .str "Ann"), ("Address", .str "ann@example.com")],
        Value.str "b@example.com"] (by decide) (by decide)⟩

/-- C1 (counterexample): setting `From` twice to the same address `a@example.com` leaves the
list holding `a@example.com`, so the stored value does contain an address of the first call. -/
theorem SetHeader_From_twice_shared_address :
    ∃ mt1 mt2 stored,
      MailTemplate.zero.SetHeader stdLib "From" [Value.str "a@example.com"] = .value mt1 ∧
      mt1.SetHeader stdLib "From" [Value.str "a@example.com"] = .value mt2 ∧
      mt2.header "From" = some (.addresses stored) ∧
      stored = [{ Name := "", Address := "a@example.com" }] ∧
      ¬ (∀ a ∈ builtAddresses stdLib [Value.str "a@example.com"], a ∉ stored) := by
  refine ⟨_, _, _, rfl, rfl, rfl, rfl, ?_⟩
  decide

/-- C2 (as amended): for a key among `To`, `Cc` and `Bcc` whose entry is unset or an `Addresses`
(what `SetHeader` itself stores there), after `SetHeader(k, vs1...)` followed by
`SetHeader(k, vs2...)` both calls return and the stored value is the addresses already held
under `k`, then those built from `vs1`, then those built from `vs2`, in order; its length is the
number already held plus `len(vs1) + len(vs2)`. -/
theorem SetHeader_recipients_twice_appends (lib : Lib) (mt : MailTemplate) (k : String)
    (vs1 vs2 : List Value) (hk : k = "To" ∨ k = "Cc" ∨ k = "Bcc")
    (h1 : ∀ v ∈ vs1, IsAddressValue lib v = true)
    (h2 : ∀ v ∈ vs2, IsAddressValue lib v = true)
    (hp : ∀ v, mt.header k = some v → ∃ a, v = .addresses a) :
    ∃ mt1 mt2, mt.SetHeader lib k vs1 = .value mt1 ∧
      mt1.SetHeader lib k vs2 = .value mt2 ∧
      mt2.header k = some (.addresses
        (priorAddresses mt k ++ builtAddresses lib vs1 ++ builtAddresses lib vs2)) ∧
      (priorAddresses mt k ++ builtAddresses lib vs1 ++ builtAddresses lib vs2).length =
        (priorAddresses mt k).length + vs1.length + vs2.length := by
  have e1 := SetHeader_recipient_eq lib mt k vs1 hk h1 hp
  have hh : (mt.withHeader k (.addresses (priorAddresses mt k ++ builtAddresses lib vs1))).header k
      = some (.addresses (priorAddresses mt k ++ builtAddresses lib vs1)) :=
    header_withHeader _ _ _
  have hp1 : ∀ v,
      (mt.withHeader k (.addresses (priorAddresses mt k ++ builtAddresses lib vs1))).header k
        = some v → ∃ a, v = .addresses a := by
    intro v hv
    rw [hh] at hv
    cases hv
    exact ⟨_, rfl⟩
  have e2 := SetHeader_recipient_eq lib _ k vs2 hk h2 hp1
  have hprior :
      priorAddresses (mt.withHeader k (.addresses (priorAddresses mt k ++ builtAddresses lib vs1))) k
        = priorAddresses mt k ++ builtAddresses lib vs1 :=
    priorAddresses_of_header _ _ _ hh
  rw [hprior] at e2
  refine ⟨_, _, e1, e2, header_withHeader _ _ _, ?_⟩
  simp [builtAddresses_length lib vs1 h1, builtAddresses_length lib vs2 h2, Nat.add_assoc]

/-- C2 (witness): the amended statement at the zero template, key `Cc`, one bare address and
then a name/address map. -/
theorem SetHeader_recipients_twice_appends_witness :
    ("Cc" = "To" ∨ "Cc" = "Cc" ∨ "Cc" = "Bcc") ∧
    (∀ v ∈ [Value.str "a@example.com"], IsAddressValue stdLib v = true) ∧
    (∀ v ∈ [Value.map [("name", .str "Bo"), ("address", .str "b@example.com")]],
      IsAddressValue stdLib v = true) ∧
    (∀ v, MailTemplate.zero.header "Cc" = some v → ∃ a, v = .addresses a) ∧
    ∃ mt1 mt2, MailTemplate.zero.SetHeader stdLib "Cc" [Value.str "a@example.com"] = .value mt1 ∧
      mt1.SetHeader stdLib "Cc"
        [Value.map [("name", .str "Bo"), ("address", .str "b@example.com")]] = .value mt2 ∧
      mt2.header "Cc" = some (.addresses
        (priorAddresses MailTemplate.zero "Cc" ++ builtAddresses stdLib [Value.str "a@example.com"]
          ++ builtAddresses stdLib
            [Value.map [("name", .str "Bo"), ("address", .str "b@example.com")]])) ∧
      (priorAddresses MailTemplate.zero "Cc" ++ builtAddresses stdLib [Value.str "a@example.com"]
          ++ builtAddresses stdLib
            [Value.map [("name", .str "Bo"), ("address", .str "b@example.com")]]).length =
        (priorAddresses MailTemplate.zero "Cc").length + 1 + 1 :=
  ⟨by decide, by decide, by decide, zero_header_none "Cc",
    SetHeader_recipients_twice_appends stdLib MailTemplate.zero "Cc" [Value.str "a@example.com"]
      [Value.map [("name", .str "Bo"), ("address", .str "b@example.com")]]
      (by decide) (by decide) (by decide) (zero_header_none "Cc")⟩

/-- C2 (counterexample): on a template whose `To` already holds `x@example.com`,
`SetHeader("To", "a@example.com")` followed by `SetHeader("To", "b@example.com")` stores three
addresses, the earlier one first, not the two built from the two calls. -/
theorem SetHeader_To_twice_keeps_earlier :
    ∃ mt0 mt1 mt2 stored,
      MailTemplate.zero.SetHeader stdLib "To" [Value.str "x@example.com"] = .value mt0 ∧
      mt0.SetHeader stdLib "To" [Value.str "a@example.com"] = .value mt1 ∧
      mt1.SetHeader stdLib "To" [Value.str "b@example.com"] = .value mt2 ∧
      mt2.header "To" = some (.addresses stored) ∧
      stored = [{ Name := "", Address := "x@example.com" },
        { Name := "", Address := "a@example.com" }, { Name := "", Address := "b@example.com" }] ∧
      stored ≠ builtAddresses stdLib [Value.str "a@example.com"] ++
        builtAddresses stdLib [Value.str "b@example.com"] ∧
      stored.length ≠ [Value.str "a@example.com"].length + [Value.str "b@example.com"].length := by
  refine ⟨_, _, _, _, rfl, rfl, rfl, rfl, rfl, ?_, ?_⟩ <;> decide

/-! ## SetHeader on other keys -/

theorem priorList_of_header (mt : MailTemplate) (k : String) (l : List Value)
    (h : mt.header k = some (.list l)) : priorList mt k = l := by
  unfold priorList
  rw [h]

theorem SetHeader_other_eq (lib : Lib) (mt : MailTemplate) (k : String) (vs : List Value)
    (hk : ¬ (CanonicalMIMEHeaderKey k = "From" ∨ CanonicalMIMEHeaderKey k = "To" ∨
      CanonicalMIMEHeaderKey k = "Cc" ∨ CanonicalMIMEHeaderKey k = "Bcc")) :
    mt.SetHeader lib k vs =
      .value (mt.withHeader (CanonicalMIMEHeaderKey k)
        (.list (priorList mt (CanonicalMIMEHeaderKey k) ++ vs))) := by
  unfold MailTemplate.SetHeader MailTemplate.withHeader
  simp only []
  rw [if_neg hk]
  unfold priorList MailTemplate.header
  cases hg : mapGet (mt.headers.getD []) (CanonicalMIMEHeaderKey k) with
  | none => simp
  | some v => cases v <;> simp

theorem typed_zero : AddressKeysTyped MailTemplate.zero := by
  intro k v _ hv
  simp [MailTemplate.header, MailTemplate.zero, mapGet] at hv

theorem typed_withHeader_addresses (mt : MailTemplate) (k0 : String) (a : Addresses)
    (ht : AddressKeysTyped mt) : AddressKeysTyped (mt.withHeader k0 (.addresses a)) := by
  intro k v hk hv
  by_cases hkk : k0 = k
  · subst hkk
    rw [header_withHeader] at hv
    cases hv
    exact ⟨_, rfl⟩
  · simp only [MailTemplate.withHeader, MailTemplate.header, Option.getD_some,
      mapGet_mapSet_other _ _ _ _ hkk] at hv
    exact ht k v hk hv

theorem typed_withHeader_other (mt : MailTemplate) (k0 : String) (v0 : Value)
    (hk0 : ¬ isAddressKey k0) (ht : AddressKeysTyped mt) :
    AddressKeysTyped (mt.withHeader k0 v0) := by
  intro k v hk hv
  have hkk : k0 ≠ k := fun h => hk0 (h ▸ hk)
  simp only [MailTemplate.withHeader, MailTemplate.header, Option.getD_some,
    mapGet_mapSet_other _ _ _ _ hkk] at hv
  exact ht k v hk hv

/-- Every call of `SetHeader` that returns keeps the invariant: address keys hold `Addresses`. -/
theorem SetHeader_keeps_AddressKeysTyped (lib : Lib) (mt mt1 : MailTemplate) (key : String)
    (vs : List Value) (ht : AddressKeysTyped mt) (h : mt.SetHeader lib key vs = .value mt1) :
    AddressKeysTyped mt1 := by
  by_cases hk : isAddressKey (CanonicalMIMEHeaderKey key)
  · have hk1 : CanonicalMIMEHeaderKey key = "From" ∨ CanonicalMIMEHeaderKey key = "To" ∨
        CanonicalMIMEHeaderKey key = "Cc" ∨ CanonicalMIMEHeaderKey key = "Bcc" := hk
    unfold MailTemplate.SetHeader at h
    simp only [] at h
    rw [if_pos hk1] at h
    cases ha : appendAddresses lib [] vs with
    | value addresses =>
      rw [ha] at h
      simp only [] at h
      by_cases hf : CanonicalMIMEHeaderKey key = "From"
      · rw [if_pos hf] at h
        cases h
        exact typed_withHeader_addresses mt _ _ ht
      · rw [if_neg hf] at h
        cases hg : mapGet (mt.headers.getD []) (CanonicalMIMEHeaderKey key) with
        | none =>
          rw [hg] at h
          cases h
          exact typed_withHeader_addresses mt _ _ ht
        | some v =>
          obtain ⟨a, rfl⟩ := ht _ v hk hg
          rw [hg] at h
          cases h
          exact typed_withHeader_addresses mt _ _ ht
    | error e => rw [ha] at h; cases h
    | panic => rw [ha] at h; cases h
  · have e1 := SetHeader_other_eq lib mt key vs hk
    rw [e1] at h
    cases h
    exact typed_withHeader_other mt _ _ hk ht

/-- C10 (as amended): for a key that is not an address key, after `SetHeader(k, a)` followed by
`SetHeader(k, b)` both calls return and the header holds the list of the values already stored
under `k` (none when `k` was unset or held no list) followed by `a` and then `b`: `a` is kept and
`b` is appended. When nothing was stored before, the list is `a, b` and `getHeaderValue` reads
its first element `a`. -/
theorem SetHeader_scalar_twice_appends (lib : Lib) (mt : MailTemplate) (k a b : String)
    (hk : ¬ (CanonicalMIMEHeaderKey k = "From" ∨ CanonicalMIMEHeaderKey k = "To" ∨
      CanonicalMIMEHeaderKey k = "Cc" ∨ CanonicalMIMEHeaderKey k = "Bcc")) :
    ∃ mt1 mt2, mt.SetHeader lib k [.str a] = .value mt1 ∧
      mt1.SetHeader lib k [.str b] = .value mt2 ∧
      mt2.header (CanonicalMIMEHeaderKey k) =
        some (.list (priorList mt (CanonicalMIMEHeaderKey k) ++ [.str a, .str b])) ∧
      (priorList mt (CanonicalMIMEHeaderKey k) = [] →
        mt2.header (CanonicalMIMEHeaderKey k) = some (.list [.str a, .str b]) ∧
        getHeaderValue (.list [.str a, .str b]) = .value a) := by
  have e1 := SetHeader_other_eq lib mt k [.str a] hk
  have hh := header_withHeader mt (CanonicalMIMEHeaderKey k)
    (.list (priorList mt (CanonicalMIMEHeaderKey k) ++ [.str a]))
  have e2 := SetHeader_other_eq lib
    (mt.withHeader (CanonicalMIMEHeaderKey k)
      (.list (priorList mt (CanonicalMIMEHeaderKey k) ++ [.str a]))) k [.str b] hk
  rw [priorList_of_header _ _ _ hh] at e2
  have e3 : priorList mt (CanonicalMIMEHeaderKey k) ++ [Value.str a] ++ [Value.str b] =
      priorList mt (CanonicalMIMEHeaderKey k) ++ [.str a, .str b] := by simp
  rw [e3] at e2
  refine ⟨_, _, e1, e2, header_withHeader _ _ _, ?_⟩
  intro hnil
  refine ⟨?_, rfl⟩
  rw [header_withHeader, hnil]
  rfl

/-- C10 (witness): the amended statement at the zero template and key `X-Note`. -/
theorem SetHeader_scalar_twice_appends_witness :
    ¬ (CanonicalMIMEHeaderKey "X-Note" = "From" ∨ CanonicalMIMEHeaderKey "X-Note" = "To" ∨
      CanonicalMIMEHeaderKey "X-Note" = "Cc" ∨ CanonicalMIMEHeaderKey "X-Note" = "Bcc") ∧
    ∃ mt1 mt2, MailTemplate.zero.SetHeader stdLib "X-Note" [.str "first"] = .value mt1 ∧
      mt1.SetHeader stdLib "X-Note" [.str "second"] = .value mt2 ∧
      mt2.header (CanonicalMIMEHeaderKey "X-Note") =
        some (.list (priorList MailTemplate.zero (CanonicalMIMEHeaderKey "X-Note") ++
          [.str "first", .str "second"])) ∧
      (priorList MailTemplate.zero (CanonicalMIMEHeaderKey "X-Note") = [] →
        mt2.header (CanonicalMIMEHeaderKey "X-Note") = some (.list [.str "first", .str "second"]) ∧
        getHeaderValue (.list [.str "first", .str "second"]) = .value "first") :=
  ⟨by decide, SetHeader_scalar_twice_appends stdLib MailTemplate.zero "X-Note" "first" "second"
    (by decide)⟩

/-- C10 (counterexample): on the zero template, `SetHeader("Subject", "a")` followed by
`SetHeader("Subject", "b")` leaves the list `a, b` under `Subject`; `getHeaderValue` reads `a`
from it, not `b`, and the message built from the headers carries the subject `a`. -/
theorem SetHeader_Subject_twice_keeps_first :
    ∃ mt1 mt2 stored msg,
      MailTemplate.zero.SetHeader stdLib "Subject" [.str "a"] = .value mt1 ∧
      mt1.SetHeader stdLib "Subject" [.str "b"] = .value mt2 ∧
      mt2.header "Subject" = some stored ∧
      stored = .list [.str "a", .str "b"] ∧
      getHeaderValue stored = .value "a" ∧
      getHeaderValue stored ≠ .value "b" ∧
      newMessage stdLib "" mt2.headers .null = .value msg ∧
      msg.GetHeader "Subject" = ["a"] := by
  refine ⟨_, _, _, _, rfl, rfl, rfl, rfl, rfl, ?_, rfl, ?_⟩ <;> decide

/-! ## Address formatting and recipients given at send time -/

theorem GetHeader_SetHeader_same (lib : Lib) (m : Message) (field : String)
    (value : List String) :
    (m.SetHeader lib field value).GetHeader field = value.map (m.encodeString lib) := by
  unfold Message.SetHeader Message.GetHeader
  simp only []
  generalize value.map (m.encodeString lib) = lines
  generalize m.header = h
  induction h with
  | nil => simp [setLines, List.lookup]
  | cons e rest ih =>
    obtain ⟨f1, v1⟩ := e
    by_cases hf : f1 = field
    · simp [setLines, List.lookup, hf]
    · have hb : (field == f1) = false := by
        simp only [beq_eq_false_iff_ne, ne_eq]
        exact fun h => hf h.symm
      simp only [setLines, hf, if_false, List.lookup, hb]
      exact ih

theorem map_encodeString_of_plain (lib : Lib) (m : Message) (ls : List String)
    (h : ∀ l ∈ ls, needsEncoding l = false) : ls.map (m.encodeString lib) = ls := by
  induction ls with
  | nil => rfl
  | cons l rest ih =>
    have hl := h l (List.mem_cons_self _ _)
    have hr := ih (fun x hx => h x (List.mem_cons_of_mem _ hx))
    simp [Message.encodeString, hl, hr]

theorem Address_format_value (lib : Lib) (a : Address) (msg : Message) (charset : String)
    (vars : Value) (acc r : List String)
    (h : Address.format lib a acc msg charset vars = .value r) :
    ∃ s, r = acc ++ [s] ∧ Address.Format lib a msg charset vars = .value [s] := by
  unfold Address.Format
  unfold Address.format at h ⊢
  by_cases hn : a.Name ≠ ""
  · rw [if_pos hn] at h ⊢
    cases h1 : translate lib charset "address" a.Name vars with
    | value name =>
      rw [h1] at h
      cases h2 : translate lib charset "address" a.Address vars with
      | value address =>
        rw [h2] at h
        simp only [Result.value.injEq] at h
        exact ⟨_, h.symm, by simp⟩
      | error e => rw [h2] at h; simp at h
      | panic => rw [h2] at h; simp at h
    | error e => rw [h1] at h; simp at h
    | panic => rw [h1] at h; simp at h
  · rw [if_neg hn] at h ⊢
    cases h2 : translate lib charset "address" a.Address vars with
    | value address =>
      rw [h2] at h
      simp only [Result.value.injEq] at h
      exact ⟨_, h.symm, by simp⟩
    | error e => rw [h2] at h; simp at h
    | panic => rw [h2] at h; simp at h

theorem formatLoop_value (lib : Lib) (msg : Message) (charset : String) (vars : Value)
    (R : Addresses) :
    ∀ acc values, Addresses.formatLoop lib msg charset vars acc R = .value values →
      ∃ out, values = acc ++ out ∧
        List.Forall₂ (fun a s => Address.Format lib a msg charset vars = .value [s]) R out := by
  induction R with
  | nil =>
    intro acc values h
    simp only [Addresses.formatLoop, Result.value.injEq] at h
    exact ⟨[], by simp [h], List.Forall₂.nil⟩
  | cons a rest ih =>
    intro acc values h
    unfold Addresses.formatLoop at h
    cases h1 : Address.format lib a acc msg charset vars with
    | value acc1 =>
      rw [h1] at h
      obtain ⟨s, hs, hfmt⟩ := Address_format_value lib a msg charset vars acc acc1 h1
      obtain ⟨out, hout, hall⟩ := ih acc1 values h
      exact ⟨s :: out, by simp [hout, hs], List.Forall₂.cons hfmt hall⟩
    | error e => rw [h1] at h; simp at h
    | panic => rw [h1] at h; simp at h

/-- C8 (as amended): when formatting the recipients `R` succeeds with the entries `values`, one
per recipient in the order of `R`, `addAddressHeader(msg, variables, charset, "To", R)` returns a
message whose `To` header is the lines `L` it held before followed by `values`, each line in the
form the header encoder of the message stores it: a line of printable ASCII is kept as it is, any
other line becomes its RFC 2047 encoded form. The header has `len(L) + len(R)` lines; the lines of
`L` stay in front, in their order, and are unchanged when they are printable ASCII (as the lines
the library has stored are); when `values` are printable ASCII too, the header is `L` followed by
`values`. -/
theorem addAddressHeader_To_appends (lib : Lib) (msg : Message) (vars : Value)
    (charset : String) (R : Addresses) (values : List String)
    (hf : Addresses.Format lib R msg charset vars = .value values) :
    ∃ msg1, addAddressHeader lib msg vars charset "To" R = .value msg1 ∧
      msg1.GetHeader "To" =
        (msg.GetHeader "To").map (msg.encodeString lib) ++ values.map (msg.encodeString lib) ∧
      List.Forall₂ (fun a s => Address.Format lib a msg charset vars = .value [s]) R values ∧
      (msg1.GetHeader "To").length = (msg.GetHeader "To").length + R.length ∧
      ((∀ l ∈ msg.GetHeader "To", needsEncoding l = false) →
        msg1.GetHeader "To" = msg.GetHeader "To" ++ values.map (msg.encodeString lib)) ∧
      ((∀ l ∈ msg.GetHeader "To", needsEncoding l = false) →
        (∀ l ∈ values, needsEncoding l = false) →
        msg1.GetHeader "To" = msg.GetHeader "To" ++ values) := by
  obtain ⟨out, hout, hall⟩ := formatLoop_value lib msg charset vars R [] values hf
  simp only [List.nil_append] at hout
  subst hout
  have hlen : values.length = R.length := hall.length_eq.symm
  have hfields : (if msg.GetHeader "To" = [] then [] else [] ++ msg.GetHeader "To") =
      msg.GetHeader "To" := by
    by_cases hnil : msg.GetHeader "To" = []
    · simp [hnil]
    · simp [hnil]
  have hget : (msg.SetHeader lib "To" (msg.GetHeader "To" ++ values)).GetHeader "To" =
      (msg.GetHeader "To").map (msg.encodeString lib) ++ values.map (msg.encodeString lib) := by
    rw [GetHeader_SetHeader_same, List.map_append]
  refine ⟨msg.SetHeader lib "To" (msg.GetHeader "To" ++ values), ?_, hget, hall, ?_, ?_, ?_⟩
  · unfold addAddressHeader
    simp only [canonical_To, hf, hfields]
  · rw [hget, List.length_append, List.length_map, List.length_map, hlen]
  · intro hL
    rw [hget, map_encodeString_of_plain lib msg _ hL]
  · intro hL hV
    rw [hget, map_encodeString_of_plain lib msg _ hL, map_encodeString_of_plain lib msg _ hV]

/-- C8 (witness): the amended statement at a message that holds the `To` line `x@example.com`
and two recipients, one with a name. -/
theorem addAddressHeader_To_appends_witness :
    Addresses.Format stdLib sampleRecipients sampleMessage "UTF-8" .null =
      .value ["\"Ann\" <ann@example.com>", "b@example.com"] ∧
    ∃ msg1, addAddressHeader stdLib sampleMessage .null "UTF-8" "To" sampleRecipients = .value msg1 ∧
      msg1.GetHeader "To" =
        (sampleMessage.GetHeader "To").map (sampleMessage.encodeString stdLib) ++
          ["\"Ann\" <ann@example.com>", "b@example.com"].map (sampleMessage.encodeString stdLib) ∧
      List.Forall₂ (fun a s => Address.Format stdLib a sampleMessage "UTF-8" .null = .value [s])
        sampleRecipients ["\"Ann\" <ann@example.com>", "b@example.com"] ∧
      (msg1.GetHeader "To").length = (sampleMessage.GetHeader "To").length + sampleRecipients.length ∧
      ((∀ l ∈ sampleMessage.GetHeader "To", needsEncoding l = false) →
        msg1.GetHeader "To" = sampleMessage.GetHeader "To" ++
          ["\"Ann\" <ann@example.com>", "b@example.com"].map (sampleMessage.encodeString stdLib)) ∧
      ((∀ l ∈ sampleMessage.GetHeader "To", needsEncoding l = false) →
        (∀ l ∈ ["\"Ann\" <ann@example.com>", "b@example.com"], needsEncoding l = false) →
        msg1.GetHeader "To" = sampleMessage.GetHeader "To" ++
          ["\"Ann\" <ann@example.com>", "b@example.com"]) :=
  ⟨by decide, addAddressHeader_To_appends stdLib sampleMessage .null "UTF-8" sampleRecipients
    ["\"Ann\" <ann@example.com>", "b@example.com"] (by decide)⟩

/-- C8 (counterexample): for a message without `To` lines, base64 transfer encoding and charset
UTF-8, and the one recipient `é@example.com`, formatting succeeds with the entry `é@example.com`,
but the `To` header then holds the encoded word for it, not the formatted entry. -/
theorem addAddressHeader_To_stores_encoded_word :
    ∃ msg1,
      (NewMessage "UTF-8" .Base64).GetHeader "To" = [] ∧
      Addresses.Format stdLib accentedRecipients (NewMessage "UTF-8" .Base64) "UTF-8" .null =
        .value ["é@example.com"] ∧
      addAddressHeader stdLib (NewMessage "UTF-8" .Base64) .null "UTF-8" "To" accentedRecipients =
        .value msg1 ∧
      msg1.GetHeader "To" = ["=?UTF-8?b?w6lAZXhhbXBsZS5jb20=?="] ∧
      msg1.GetHeader "To" ≠ (NewMessage "UTF-8" .Base64).GetHeader "To" ++ ["é@example.com"] := by
  refine ⟨_, ?_, ?_, rfl, ?_, ?_⟩ <;> decide

/-! ## The code at the inputs where it departs from the specification -/

/-- C3 (the code at the failing inputs): when the text body renders to nothing, a template with
only `Text` makes no send call and returns a nil error, and a template with both bodies calls
`SendHTML` instead of `SendMultipart`; when the HTML body renders to nothing, a template with both
bodies calls `Send` instead of `SendMultipart`. -/
theorem Send_empty_output_dispatch :
    MailTemplate.Send stdLib emptyTextTemplate .null none = { calls := [], err := .value none } ∧
    MailTemplate.Send stdLib emptyTextWithHtmlTemplate .null none =
      { calls := [.SendHTML "UTF-8" "<p>hi</p>"], err := .value none } ∧
    MailTemplate.Send stdLib textWithEmptyHtmlTemplate .null none =
      { calls := [.Send "UTF-8" "hi"], err := .value none } := by
  decide

/-- C4 (the code at the failing input): with charset `Shift_JIS` stored by `SetHeader`, a text
body that the transcoder rejects and an HTML body, `encode` fails on the text body, yet
`MailTemplate.Send` calls `SendHTML` (with the empty charset `encode` left behind) and returns a
nil error. -/
theorem Send_text_transcode_error_lost :
    ∃ mt, unencodableTextTemplate.SetHeader stdLib "Charset" [.str "Shift_JIS"] = .value mt ∧
      getCharset mt.headers = .value "Shift_JIS" ∧
      encode stdLib "Shift_JIS" unencodableText =
        ("", "", some "encoding: rune not supported by encoding.") ∧
      encode stdLib "" "<p>hi</p>" = ("<p>hi</p>", "", none) ∧
      MailTemplate.Send stdLib mt .null none =
        { calls := [.SendHTML "" "<p>hi</p>"], err := .value none } := by
  refine ⟨_, rfl, ?_, ?_, ?_, ?_⟩ <;> decide

theorem getEncodingLoop_panic (lib : Lib) (k : String) (v : Value) (m : GoMap)
    (hk : ToLower lib k = "encoding") (hv : v.isStr = false) :
    (k, v) ∈ m → ∀ encoding, getEncodingLoop lib encoding m = .panic := by
  induction m with
  | nil => intro h; simp at h
  | cons e rest ih =>
    intro h encoding
    obtain ⟨k1, v1⟩ := e
    unfold getEncodingLoop
    rcases List.mem_cons.mp h with heq | hmem
    · simp only [Prod.mk.injEq] at heq
      obtain ⟨rfl, rfl⟩ := heq
      rw [if_pos hk]
      cases v <;> simp_all [Value.isStr]
    · by_cases hk1 : ToLower lib k1 = "encoding"
      · rw [if_pos hk1]
        cases v1 <;> first | rfl | exact ih hmem _
      · rw [if_neg hk1]
        exact ih hmem _

theorem ToLower_Encoding (lib : Lib) : ToLower lib "Encoding" = "encoding" := rfl

/-- C5 (the code at the failing inputs): for every template and every string `e`,
`SetHeader("Encoding", e)` returns, and `getEncoding` applied to the resulting header map panics:
the value is stored as a list, which the type assertion to `string` rejects. -/
theorem getEncoding_after_SetHeader_panics (lib : Lib) (mt : MailTemplate) (e : String) :
    ∃ mt1, mt.SetHeader lib "Encoding" [.str e] = .value mt1 ∧
      mt1.header "Encoding" = some (.list (priorList mt "Encoding" ++ [.str e])) ∧
      getEncoding lib mt1.headers = .panic := by
  have hc : CanonicalMIMEHeaderKey "Encoding" = "Encoding" := by decide
  have hk : ¬ (CanonicalMIMEHeaderKey "Encoding" = "From" ∨
      CanonicalMIMEHeaderKey "Encoding" = "To" ∨ CanonicalMIMEHeaderKey "Encoding" = "Cc" ∨
      CanonicalMIMEHeaderKey "Encoding" = "Bcc") := by decide
  have e1 := SetHeader_other_eq lib mt "Encoding" [.str e] hk
  rw [hc] at e1
  refine ⟨_, e1, header_withHeader _ _ _, ?_⟩
  unfold getEncoding
  have hp := getEncodingLoop_panic lib "Encoding"
    (.list (priorList mt "Encoding" ++ [.str e]))
    (mapSet (mt.headers.getD []) "Encoding" (.list (priorList mt "Encoding" ++ [.str e])))
    (ToLower_Encoding lib) rfl (mem_mapSet _ _ _) ""
  simp only [MailTemplate.withHeader, Option.getD_some, hp]

/-- C6 (the code at the failing input): with an empty charset argument and a header map whose
`Charset` entry is a plain string, the charset `newMessage` uses is `UTF-8`, not the entry. -/
theorem newMessage_plain_string_Charset_ignored :
    (∀ s : String, newMessageCharset "" (some [("Charset", .str s)]) = .value "UTF-8") ∧
    ∃ msg, newMessage stdLib "" (some [("Charset", .str "Shift_JIS")]) .null = .value msg ∧
      msg.charset = "UTF-8" := by
  refine ⟨fun s => rfl, _, rfl, rfl⟩

/-- C7 (the code at the failing input): loading the header document whose `To` entry is an array
holding the one address object for `a@example.com` leaves an empty `Addresses` under `To`, and
the message built from the template has no `To` line. -/
theorem getTemplate_To_array_dropped :
    ∃ mt msg, getTemplate stdLib sampleLoader sampleTemplates = .value mt ∧
      mt.header "To" = some (.addresses []) ∧
      newMessage stdLib "" mt.headers .null = .value msg ∧
      msg.GetHeader "To" = [] := by
  refine ⟨_, _, rfl, rfl, rfl, rfl⟩

/-- C9 (the code at the failing input): after `SetHeader("X-Tag", "a", "b")` the header holds the
list `a, b`, but the message built by `newMessage` carries under `X-Tag` the single line `a`. -/
theorem newMessage_list_header_first_only :
    ∃ mt msg, MailTemplate.zero.SetHeader stdLib "X-Tag" [.str "a", .str "b"] = .value mt ∧
      mt.header "X-Tag" = some (.list [.str "a", .str "b"]) ∧
      newMessage stdLib "" mt.headers .null = .value msg ∧
      msg.GetHeader "X-Tag" = ["a"] ∧
      msg.GetHeader "X-Tag" ≠ ["a", "b"] := by
  refine ⟨_, _, rfl, rfl, rfl, rfl, ?_⟩
  decide

end Templemails
